import Mathlib

/-!
Verification of the budget-automation pipeline in
`src/stacks/budget-automation/budget_automation.py` (class
`EnhancedBudgetAutomation`): a shallow embedding of the spending
aggregation, metrics, trend, alert and history-store logic, together
with theorems settling the specified properties.

Monetary amounts from the provider are signed integers in milliunits
(modelled as `ℤ`); all derived quantities (spending totals, targets,
percentages, slopes) are modelled as `ℚ`, since the Python floats here
only ever arise from exact decimal inputs and the properties at stake
are order/arithmetic facts.
-/

namespace BudgetAutomation

/-! ### String constants appearing in the source -/

def rl_groceries : String := "🥕  Groceries"

def rl_shopping : String := "🛋️  Shopping"

def rl_personal_care : String := "🧘‍♀️  Personal Care"

def rl_baby : String := "🍼  Baby Supplies"

def rl_dining : String := "🥯  Dining Out"

def rl_gas : String := "⛽️  Gas"

def rl_medical : String := "👩‍⚕️  Medical & Pediatric"

def rl_pet : String := "🦮  Pet Stuff"

def rl_subs : String := "🔁   Subscriptions"

def rl_entertainment : String := "🍿  Entertainment"

def rl_home : String := "🔨  Home Maintenance / HOA"

def cat_groceries : String := "🥕 Groceries"

def cat_shopping : String := "🛒 Shopping & Personal"

def cat_dining : String := "🍽️ Dining Out"

def cat_transport : String := "🚗 Transportation"

def cat_medical : String := "🏥 Services & Medical"

def cat_pet : String := "🐕 Pet Care"

def cat_tech : String := "🎮 Entertainment & Tech"

def cat_home : String := "🔧 Home Maintenance"

def s_uncategorized : String := "Uncategorized"

/-! ### Configuration (`setup_categories`) -/

/-- `self.category_mapping` from `setup_categories`: raw provider label →
budget category, a plain Python dict (exact, case-sensitive keys). -/
def category_mapping : List (String × String) := [
  (rl_groceries, cat_groceries),
  (rl_shopping, cat_shopping),
  (rl_personal_care, cat_shopping),
  (rl_baby, cat_shopping),
  (rl_dining, cat_dining),
  (rl_gas, cat_transport),
  (rl_medical, cat_medical),
  (rl_pet, cat_pet),
  (rl_subs, cat_tech),
  (rl_entertainment, cat_tech),
  (rl_home, cat_home)
]

/-- `self.monthly_targets` from `setup_categories`. -/
def monthly_targets : List (String × ℚ) := [
  (cat_groceries, 900),
  (cat_shopping, 675),
  (cat_dining, 250),
  (cat_transport, 150),
  (cat_medical, 400),
  (cat_pet, 300),
  (cat_tech, 125),
  (cat_home, 101)
]

/-! ### Transactions and aggregation (`process_transactions`) -/

/-- One YNAB transaction as consumed by `process_transactions`:
`transaction['amount']` is a signed milliunit integer, and
`transaction.get('category_name', 'Uncategorized')` may be absent,
hence the `Option`. -/
structure Transaction where
  amount : ℤ
  category_name : Option String
deriving DecidableEq

/-- `transaction.get('category_name', 'Uncategorized')`. -/
def txLabel (t : Transaction) : String :=
  t.category_name.getD s_uncategorized

/-- `self.category_mapping.get(category_name, category_name)`:
dict lookup with the raw label itself as the default. -/
def map_label (label : String) : String :=
  (category_mapping.lookup label).getD label

/-- The budget category a transaction is attributed to. -/
def txCategory (t : Transaction) : String :=
  map_label (txLabel t)

/-- `mapped_category in self.monthly_targets`. -/
def hasTarget (c : String) : Bool :=
  (monthly_targets.lookup c).isSome

/-- `abs(transaction['amount']) / 1000` — milliunits to currency units. -/
def txConverted (t : Transaction) : ℚ :=
  (|t.amount| : ℚ) / 1000

/-- A Python dict `str → float`, modelled as a partial map: `none` means
the key is absent from the dict. -/
def SpendingMap : Type := String → Option ℚ

/-- `spending_by_category[k] = spending_by_category.get(k, 0) + v`. -/
def addSpending (m : SpendingMap) (k : String) (v : ℚ) : SpendingMap :=
  fun s => if s = k then some ((m k).getD 0 + v) else m s

/-- The body of the `for transaction in transactions` loop in
`process_transactions`. -/
def processStep (m : SpendingMap) (t : Transaction) : SpendingMap :=
  if t.amount < 0 then
    if hasTarget (txCategory t) then addSpending m (txCategory t) (txConverted t)
    else m
  else m

/-- `process_transactions`: left-to-right accumulation starting from the
empty dict. -/
def process_transactions (ts : List Transaction) : SpendingMap :=
  ts.foldl processStep (fun _ => none)

/-- The transactions that contribute to category `c`: negative amount,
mapped label equal to `c`, and `c` carries a configured target. -/
def contributing (ts : List Transaction) (c : String) : List Transaction :=
  ts.filter (fun t => decide (t.amount < 0) && (txCategory t == c) && hasTarget c)

/-- Characterization of the aggregation loop of `process_transactions`
for an arbitrary starting dict `m`. -/
theorem foldl_processStep_spec (ts : List Transaction) (m : SpendingMap) (c : String) :
    (ts.foldl processStep m) c =
      if contributing ts c = [] then m c
      else some ((m c).getD 0 + ((contributing ts c).map txConverted).sum) := by
  induction ts generalizing m with
  | nil => simp [contributing]
  | cons t ts ih =>
    rw [List.foldl_cons, ih]
    by_cases ht : t.amount < 0
    · by_cases htc : txCategory t = c
      · by_cases htg : hasTarget c = true
        · have hstep : (processStep m t) c = some ((m c).getD 0 + txConverted t) := by
            simp [processStep, ht, htc, htg, addSpending]
          have hcontrib : contributing (t :: ts) c = t :: contributing ts c := by
            simp [contributing, List.filter_cons, ht, htc, htg]
          rw [hcontrib, hstep]
          by_cases hemp : contributing ts c = []
          · simp [hemp]
          · simp [hemp, add_assoc]
        · have hstep : processStep m t = m := by
            simp [processStep, ht, htc, htg]
          have hcontrib : contributing (t :: ts) c = contributing ts c := by
            simp [contributing, List.filter_cons, htg]
          rw [hcontrib, hstep]
      · have hstep : (processStep m t) c = m c := by
          by_cases htg : hasTarget (txCategory t) = true
          · have hne : c ≠ txCategory t := fun h => htc h.symm
            simp [processStep, ht, htg, addSpending, hne]
          · simp [processStep, ht, htg]
        have hcontrib : contributing (t :: ts) c = contributing ts c := by
          simp [contributing, List.filter_cons, htc]
        rw [hcontrib, hstep]
    · have hstep : processStep m t = m := by simp [processStep, ht]
      have hcontrib : contributing (t :: ts) c = contributing ts c := by
        simp [contributing, List.filter_cons, ht]
      rw [hcontrib, hstep]

/-- C1: `process_transactions` sends each category with a configured
monthly target to the sum of `abs(amount)/1000` over its contributing
transactions (those with `amount < 0` whose mapped label equals the
category); non-negative amounts and unmapped-target categories
contribute nothing, and a category with no contributing transaction is
absent from the resulting dict. -/
theorem C1_process_transactions_spec (ts : List Transaction) (c : String) :
    process_transactions ts c =
      if contributing ts c = [] then none
      else some (((contributing ts c).map txConverted).sum) := by
  rw [process_transactions, foldl_processStep_spec]
  by_cases h : contributing ts c = [] <;> simp [h]

/-- C9: the aggregation is invariant under permutation of the input
transaction sequence. -/
theorem C9_process_transactions_perm_invariant (l₁ l₂ : List Transaction)
    (h : l₁.Perm l₂) : process_transactions l₁ = process_transactions l₂ := by
  funext c
  rw [process_transactions, process_transactions, foldl_processStep_spec,
    foldl_processStep_spec]
  have hperm : (contributing l₁ c).Perm (contributing l₂ c) := h.filter _
  have hsum : ((contributing l₁ c).map txConverted).sum
      = ((contributing l₂ c).map txConverted).sum :=
    (hperm.map txConverted).sum_eq
  by_cases h1 : contributing l₁ c = []
  · have h2 : contributing l₂ c = [] := (h1 ▸ hperm).symm.eq_nil
    simp [h1, h2]
  · have h2 : contributing l₂ c ≠ [] := fun hnil => h1 ((hnil ▸ hperm).eq_nil)
    simp [h1, h2, hsum]

/-- Witness for C9 at a concrete pair of permuted inputs. -/
theorem C9_witness :
    process_transactions [⟨-1000, some rl_groceries⟩, ⟨-2000, some rl_dining⟩]
      = process_transactions [⟨-2000, some rl_dining⟩, ⟨-1000, some rl_groceries⟩] :=
  C9_process_transactions_perm_invariant _ _ (List.Perm.swap _ _ _)

/-! ### Metrics (`calculate_metrics`) -/

def st_over : String := "🚨 Over Budget"

def st_close : String := "⚠️ Close to Limit"

def st_ontrack : String := "✅ On Track"

def color_red : String := "#dc3545"

def color_yellow : String := "#ffc107"

def color_green : String := "#28a745"

def color_grey : String := "#6c757d"

/-- One entry of the `metrics` dict built by `calculate_metrics`. -/
structure Metric where
  spent : ℚ
  target : ℚ
  percentage : ℚ
  status : String
  status_color : String
deriving DecidableEq

/-- `percentage = (spent / target * 100) if target > 0 else 0`. -/
def metricPercentage (spent target : ℚ) : ℚ :=
  if 0 < target then spent / target * 100 else 0

/-- Body of the `for category, target in self.monthly_targets.items()`
loop in `calculate_metrics`. -/
def metricFor (spent target : ℚ) : Metric :=
  if 100 < metricPercentage spent target then
    ⟨spent, target, metricPercentage spent target, st_over, color_red⟩
  else if 90 < metricPercentage spent target then
    ⟨spent, target, metricPercentage spent target, st_close, color_yellow⟩
  else ⟨spent, target, metricPercentage spent target, st_ontrack, color_green⟩

/-- `calculate_metrics`, generalized over the configured target table
(the Python method reads `self.monthly_targets`, fixed at startup). -/
def calculate_metricsWith (targets : List (String × ℚ)) (spending : SpendingMap) :
    List (String × Metric) :=
  targets.map (fun p => (p.1, metricFor ((spending p.1).getD 0) p.2))

/-- `calculate_metrics` with the configured targets. -/
def calculate_metrics (spending : SpendingMap) : List (String × Metric) :=
  calculate_metricsWith monthly_targets spending

theorem st_over_ne_close : st_over ≠ st_close := by decide

theorem st_over_ne_ontrack : st_over ≠ st_ontrack := by decide

theorem st_close_ne_ontrack : st_close ≠ st_ontrack := by decide

/-- Full case analysis of one metrics entry. -/
theorem metricFor_spec (spent target : ℚ) :
    (metricFor spent target).spent = spent ∧
    (metricFor spent target).target = target ∧
    (metricFor spent target).percentage = metricPercentage spent target ∧
    (100 < (metricFor spent target).percentage
        ↔ (metricFor spent target).status = st_over) ∧
    ((90 < (metricFor spent target).percentage
        ∧ (metricFor spent target).percentage ≤ 100)
        ↔ (metricFor spent target).status = st_close) ∧
    ((metricFor spent target).percentage ≤ 90
        ↔ (metricFor spent target).status = st_ontrack) := by
  unfold metricFor
  split_ifs with h1 h2
  · refine ⟨rfl, rfl, rfl, iff_of_true h1 rfl, iff_of_false ?_ st_over_ne_close,
      iff_of_false ?_ st_over_ne_ontrack⟩
    · rintro ⟨-, hle⟩; exact absurd h1 (not_lt.mpr hle)
    · intro h; exact absurd h1 (not_lt.mpr (h.trans (by norm_num)))
  · exact ⟨rfl, rfl, rfl, iff_of_false h1 (fun h => st_over_ne_close h.symm),
      iff_of_true ⟨h2, not_lt.mp h1⟩ rfl,
      iff_of_false (fun h => absurd h2 (not_lt.mpr h)) st_close_ne_ontrack⟩
  · refine ⟨rfl, rfl, rfl, iff_of_false h1 ?_,
      iff_of_false (fun h => absurd h.1 h2) ?_,
      iff_of_true (not_lt.mp h2) rfl⟩
    · exact fun h => st_over_ne_ontrack h.symm
    · exact fun h => st_close_ne_ontrack h.symm

/-- C2: `calculate_metrics` yields one entry per configured category
(zero-spend categories included); the percentage is `spent/target*100`
for a positive target and `0` for a zero target (no division occurs),
and the status is over-budget for percentage above 100, close-to-limit
for percentage in (90, 100], and on-track otherwise. -/
theorem C2_calculate_metrics_spec (targets : List (String × ℚ)) (spending : SpendingMap)
    (c : String) (m : Metric)
    (hmem : (c, m) ∈ calculate_metricsWith targets spending) :
    ((calculate_metricsWith targets spending).map Prod.fst = targets.map Prod.fst) ∧
    m.spent = (spending c).getD 0 ∧
    (0 < m.target → m.percentage = m.spent / m.target * 100) ∧
    (m.target = 0 → m.percentage = 0) ∧
    (100 < m.percentage ↔ m.status = st_over) ∧
    ((90 < m.percentage ∧ m.percentage ≤ 100) ↔ m.status = st_close) ∧
    (m.percentage ≤ 90 ↔ m.status = st_ontrack) := by
  refine ⟨by simp [calculate_metricsWith], ?_⟩
  obtain ⟨p, hp, heq⟩ := List.mem_map.mp hmem
  obtain ⟨hc, hm⟩ := Prod.mk.injEq .. ▸ heq
  subst hc
  obtain ⟨hspent, htarget, hperc, hiff1, hiff2, hiff3⟩ :=
    metricFor_spec ((spending p.1).getD 0) p.2
  rw [← hm]
  refine ⟨hspent, ?_, ?_, hiff1, hiff2, hiff3⟩
  · intro hpos
    rw [htarget] at hpos
    rw [hspent, htarget, hperc, metricPercentage, if_pos hpos]
  · intro hzero
    rw [htarget] at hzero
    rw [hperc, metricPercentage, if_neg]
    simp [hzero]

/-- Witness for C2 at a concrete target table and empty spending dict. -/
theorem C2_witness :
    ((cat_groceries, metricFor 0 900)
        ∈ calculate_metricsWith [(cat_groceries, 900)] (fun _ => none)) ∧
    (0:ℚ) < (metricFor 0 900).target ∧
    (metricFor 0 900).percentage = (metricFor 0 900).spent / (metricFor 0 900).target * 100 := by
  have hmem : (cat_groceries, metricFor 0 900)
      ∈ calculate_metricsWith [(cat_groceries, 900)] (fun _ => none) :=
    List.mem_singleton.mpr rfl
  have htarget : (0:ℚ) < (metricFor 0 900).target := by
    norm_num [metricFor, metricPercentage]
  exact ⟨hmem, htarget,
    (C2_calculate_metrics_spec [(cat_groceries, 900)] (fun _ => none)
      cat_groceries (metricFor 0 900) hmem).2.2.1 htarget⟩

/-! ### Alerts (`check_spending_alerts`)

The emitted alert dicts carry a formatted human-readable `message`
string; that string is presentation-only (float formatting) and is not
modelled. The same alerts are also inserted into the `spending_alerts`
table; the claim under verification concerns the returned list. -/

def al_high : String := "high_spending"

def al_over : String := "over_budget"

def sev_warning : String := "warning"

def sev_danger : String := "danger"

structure Alert where
  type : String
  category : String
  severity : String
deriving DecidableEq

/-- Body of the `for category, data in metrics.items()` loop of
`check_spending_alerts`, with the alert threshold as a parameter
(the Python reads `self.spending_alert_threshold`, default 90). -/
def alertFor (threshold : ℚ) (category : String) (data : Metric) : Option Alert :=
  if threshold ≤ data.percentage ∧ data.percentage < 100 then
    some ⟨al_high, category, sev_warning⟩
  else if 100 ≤ data.percentage then
    some ⟨al_over, category, sev_danger⟩
  else none

/-- `check_spending_alerts`: one pass over the metrics dict, appending
at most one alert per entry. -/
def check_spending_alerts (threshold : ℚ) (metrics : List (String × Metric)) :
    List Alert :=
  metrics.filterMap (fun p => alertFor threshold p.1 p.2)

theorem al_high_ne_over : al_high ≠ al_over := by decide

theorem al_over_ne_high : al_over ≠ al_high := by decide

/-- Any alert produced by `alertFor` carries the category it was given. -/
theorem alertFor_category (threshold : ℚ) (c : String) (m : Metric) (a : Alert)
    (h : alertFor threshold c m = some a) : a.category = c := by
  unfold alertFor at h
  split_ifs at h <;> cases h <;> rfl

/-- Every emitted alert belongs to some metrics entry key. -/
theorem check_alerts_category_mem (threshold : ℚ) (metrics : List (String × Metric))
    (a : Alert) (ha : a ∈ check_spending_alerts threshold metrics) :
    a.category ∈ metrics.map Prod.fst := by
  obtain ⟨p, hp, hfa⟩ := List.mem_filterMap.mp ha
  rw [alertFor_category _ _ _ _ hfa]
  exact List.mem_map.mpr ⟨p, hp, rfl⟩

/-- In an assoc list with pairwise distinct keys, a key determines its
value. -/
theorem assoc_nodup_eq {β : Type} (l : List (String × β)) (a : String) (b₁ b₂ : β)
    (hnd : (l.map Prod.fst).Nodup) (h₁ : (a, b₁) ∈ l) (h₂ : (a, b₂) ∈ l) : b₁ = b₂ := by
  induction l with
  | nil => cases h₁
  | cons p l ih =>
    rw [List.map_cons, List.nodup_cons] at hnd
    rcases List.mem_cons.mp h₁ with he₁ | ht₁ <;> rcases List.mem_cons.mp h₂ with he₂ | ht₂
    · rw [← he₂] at he₁; exact congrArg Prod.snd he₁
    · exfalso; apply hnd.1
      rw [← congrArg Prod.fst he₁]
      exact List.mem_map.mpr ⟨(a, b₂), ht₂, rfl⟩
    · exfalso; apply hnd.1
      rw [← congrArg Prod.fst he₂]
      exact List.mem_map.mpr ⟨(a, b₁), ht₁, rfl⟩
    · exact ih hnd.2 ht₁ ht₂

/-- With distinct metric keys, the alerts attributed to category `c` are
exactly those produced from the unique entry for `c`. -/
theorem check_alerts_filter_eq (threshold : ℚ) (metrics : List (String × Metric))
    (c : String) (m : Metric) (hnd : (metrics.map Prod.fst).Nodup)
    (hmem : (c, m) ∈ metrics) :
    (check_spending_alerts threshold metrics).filter (fun a => a.category == c)
      = (alertFor threshold c m).toList := by
  induction metrics with
  | nil => cases hmem
  | cons p ms ih =>
    rw [List.map_cons, List.nodup_cons] at hnd
    have hsplit : check_spending_alerts threshold (p :: ms)
        = (alertFor threshold p.1 p.2).toList ++ check_spending_alerts threshold ms := by
      cases hfa : alertFor threshold p.1 p.2 <;>
        simp [check_spending_alerts, List.filterMap_cons, hfa]
    rw [hsplit, List.filter_append]
    rcases List.mem_cons.mp hmem with he | ht
    · have hc : p.1 = c := (congrArg Prod.fst he).symm
      have hm : p.2 = m := (congrArg Prod.snd he).symm
      subst hc; subst hm
      have h₁ : (alertFor threshold p.1 p.2).toList.filter (fun a => a.category == p.1)
          = (alertFor threshold p.1 p.2).toList := by
        cases hfa : alertFor threshold p.1 p.2 with
        | none => rfl
        | some a =>
          have := alertFor_category _ _ _ _ hfa
          simp [Option.toList, this]
      have h₂ : (check_spending_alerts threshold ms).filter (fun a => a.category == p.1)
          = [] := by
        rw [List.filter_eq_nil_iff]
        intro a ha
        simp only [beq_iff_eq]
        intro hac
        exact hnd.1 (hac ▸ check_alerts_category_mem threshold ms a ha)
      rw [h₁, h₂, List.append_nil]
    · have hc : p.1 ≠ c := by
        intro h
        exact hnd.1 (h ▸ List.mem_map.mpr ⟨(c, m), ht, rfl⟩)
      have h₁ : (alertFor threshold p.1 p.2).toList.filter (fun a => a.category == c)
          = [] := by
        cases hfa : alertFor threshold p.1 p.2 with
        | none => rfl
        | some a =>
          have := alertFor_category _ _ _ _ hfa
          simp [Option.toList, this, hc]
      rw [h₁, List.nil_append]
      exact ih hnd.2 ht

/-- C3: per metrics entry, at most one alert is emitted for its
category; the high-spending/warning alert appears exactly when
`threshold ≤ percentage < 100`, the over-budget/danger alert exactly
when `percentage ≥ 100`, and no alert for the category exactly when
`percentage < threshold` and `percentage < 100`. -/
theorem C3_check_spending_alerts_spec (threshold : ℚ) (metrics : List (String × Metric))
    (c : String) (m : Metric) (hnd : (metrics.map Prod.fst).Nodup)
    (hmem : (c, m) ∈ metrics) :
    ((check_spending_alerts threshold metrics).filter (fun a => a.category == c)).length ≤ 1 ∧
    ((threshold ≤ m.percentage ∧ m.percentage < 100) ↔
      (⟨al_high, c, sev_warning⟩ : Alert) ∈ check_spending_alerts threshold metrics) ∧
    (100 ≤ m.percentage ↔
      (⟨al_over, c, sev_danger⟩ : Alert) ∈ check_spending_alerts threshold metrics) ∧
    ((m.percentage < threshold ∧ m.percentage < 100) ↔
      ∀ a ∈ check_spending_alerts threshold metrics, a.category ≠ c) := by
  have hfe := check_alerts_filter_eq threshold metrics c m hnd hmem
  have hmem_iff : ∀ a : Alert, a.category = c →
      (a ∈ check_spending_alerts threshold metrics ↔ a ∈ (alertFor threshold c m).toList) := by
    intro a hac
    rw [← hfe]
    constructor
    · intro h; exact List.mem_filter.mpr ⟨h, by simp [hac]⟩
    · intro h; exact (List.mem_filter.mp h).1
  refine ⟨?_, ?_⟩
  · rw [hfe]; cases alertFor threshold c m <;> simp [Option.toList]
  by_cases h1 : threshold ≤ m.percentage ∧ m.percentage < 100
  · have hfa : alertFor threshold c m = some ⟨al_high, c, sev_warning⟩ := by
      unfold alertFor; rw [if_pos h1]
    refine ⟨iff_of_true h1 ?_, iff_of_false (not_le.mpr h1.2) ?_, iff_of_false ?_ ?_⟩
    · exact (hmem_iff _ rfl).mpr (by simp [hfa, Option.toList])
    · intro h
      have := (hmem_iff _ rfl).mp h
      rw [hfa] at this
      simp only [Option.toList, List.mem_singleton] at this
      exact al_over_ne_high (congrArg Alert.type this)
    · rintro ⟨hlt, -⟩; exact absurd h1.1 (not_le.mpr hlt)
    · intro hall
      exact hall (⟨al_high, c, sev_warning⟩ : Alert)
        ((hmem_iff (⟨al_high, c, sev_warning⟩ : Alert) rfl).mpr
          (by simp [hfa, Option.toList])) rfl
  · by_cases h2 : 100 ≤ m.percentage
    · have hfa : alertFor threshold c m = some ⟨al_over, c, sev_danger⟩ := by
        unfold alertFor; rw [if_neg h1, if_pos h2]
      refine ⟨iff_of_false h1 ?_, iff_of_true h2 ?_, iff_of_false ?_ ?_⟩
      · intro h
        have := (hmem_iff _ rfl).mp h
        rw [hfa] at this
        simp only [Option.toList, List.mem_singleton] at this
        exact al_high_ne_over (congrArg Alert.type this)
      · exact (hmem_iff _ rfl).mpr (by simp [hfa, Option.toList])
      · rintro ⟨-, hlt⟩; exact absurd h2 (not_le.mpr hlt)
      · intro hall
        exact hall (⟨al_over, c, sev_danger⟩ : Alert)
          ((hmem_iff (⟨al_over, c, sev_danger⟩ : Alert) rfl).mpr
            (by simp [hfa, Option.toList])) rfl
    · have hfa : alertFor threshold c m = none := by
        unfold alertFor; rw [if_neg h1, if_neg h2]
      have hlt100 : m.percentage < 100 := not_le.mp h2
      have hltT : m.percentage < threshold :=
        not_le.mp (fun hle => h1 ⟨hle, hlt100⟩)
      refine ⟨iff_of_false h1 ?_, iff_of_false h2 ?_, iff_of_true ⟨hltT, hlt100⟩ ?_⟩
      · intro h
        have := (hmem_iff _ rfl).mp h
        rw [hfa] at this
        cases this
      · intro h
        have := (hmem_iff _ rfl).mp h
        rw [hfa] at this
        cases this
      · intro a ha hac
        have := (hmem_iff a hac).mp ha
        rw [hfa] at this
        cases this

/-- Witness for C3: threshold 90, one category at exactly 90 percent
yields the high-spending warning alert. -/
theorem C3_witness :
    (([(cat_groceries, metricFor 810 900)].map Prod.fst).Nodup) ∧
    ((cat_groceries, metricFor 810 900) ∈ [(cat_groceries, metricFor 810 900)]) ∧
    (⟨al_high, cat_groceries, sev_warning⟩ : Alert)
      ∈ check_spending_alerts 90 [(cat_groceries, metricFor 810 900)] := by
  have hnd : ([(cat_groceries, metricFor 810 900)].map Prod.fst).Nodup := by simp
  have hmem : (cat_groceries, metricFor 810 900) ∈ [(cat_groceries, metricFor 810 900)] :=
    List.mem_singleton.mpr rfl
  refine ⟨hnd, hmem, ?_⟩
  have h := (C3_check_spending_alerts_spec 90 [(cat_groceries, metricFor 810 900)]
    cat_groceries (metricFor 810 900) hnd hmem).2.1
  refine h.mp ⟨?_, ?_⟩ <;> norm_num [metricFor, metricPercentage]

/-! ### History store: `daily_spending` writes (`save_daily_data`)

The `daily_spending` table (see `setup_database`) is declared with
`UNIQUE(date, category)`, and `save_daily_data` writes with
`INSERT OR REPLACE`, whose SQLite semantics on a unique-constraint
conflict is: delete the conflicting row, then insert the new one. The
table is modelled as a list of rows; the surrogate `id` and
`created_at` columns play no role in the claims and are not modelled. -/

structure DailyRow where
  date : String
  category : String
  amount : ℚ
  month_budget : ℚ
  percentage : ℚ
deriving DecidableEq

/-- Does a row have the given (date, category) key? -/
def rowKeyMatches (date category : String) (r : DailyRow) : Bool :=
  r.date == date && r.category == category

/-- SQLite `INSERT OR REPLACE` into a table with `UNIQUE(date, category)`. -/
def insert_or_replace (tbl : List DailyRow) (r : DailyRow) : List DailyRow :=
  (tbl.filter (fun r0 => !(rowKeyMatches r.date r.category r0))) ++ [r]

/-- `save_daily_data`: one upsert per metrics entry, all dated `today`
(the Python uses `datetime.now().strftime('%Y-%m-%d')`, injected here
as a parameter). -/
def save_daily_data (today : String) (metrics : List (String × Metric))
    (tbl : List DailyRow) : List DailyRow :=
  metrics.foldl
    (fun t p => insert_or_replace t ⟨today, p.1, p.2.spent, p.2.target, p.2.percentage⟩) tbl

/-- No two rows of the table share a (date, category) key — the
`UNIQUE(date, category)` table constraint. -/
def keyUnique (tbl : List DailyRow) : Prop :=
  (tbl.map (fun r => (r.date, r.category))).Nodup

theorem filter_insert_same (tbl : List DailyRow) (r : DailyRow) :
    (insert_or_replace tbl r).filter (rowKeyMatches r.date r.category) = [r] := by
  unfold insert_or_replace
  rw [List.filter_append, List.filter_filter]
  have h1 : tbl.filter
      (fun a => rowKeyMatches r.date r.category a && !(rowKeyMatches r.date r.category a))
      = [] := by
    rw [List.filter_eq_nil_iff]
    intro a _
    cases rowKeyMatches r.date r.category a <;> simp
  rw [h1, List.nil_append]
  have h2 : rowKeyMatches r.date r.category r = true := by
    simp [rowKeyMatches]
  simp [h2]

theorem filter_insert_other (tbl : List DailyRow) (r : DailyRow) (d c : String)
    (h : ¬(r.date = d ∧ r.category = c)) :
    (insert_or_replace tbl r).filter (rowKeyMatches d c)
      = tbl.filter (rowKeyMatches d c) := by
  unfold insert_or_replace
  rw [List.filter_append, List.filter_filter]
  have hr : rowKeyMatches d c r = false := by
    rw [Bool.eq_false_iff]
    intro htrue
    apply h
    simpa [rowKeyMatches] using htrue
  have hcong : ∀ a ∈ tbl,
      (rowKeyMatches d c a && !(rowKeyMatches r.date r.category a)) = rowKeyMatches d c a := by
    intro a _
    cases hk : rowKeyMatches d c a
    · simp
    · have hfalse : rowKeyMatches r.date r.category a = false := by
        rw [Bool.eq_false_iff]
        intro htrue
        apply h
        have h1 : a.date = d ∧ a.category = c := by simpa [rowKeyMatches] using hk
        have h2 : a.date = r.date ∧ a.category = r.category := by
          simpa [rowKeyMatches] using htrue
        exact ⟨h2.1.symm.trans h1.1, h2.2.symm.trans h1.2⟩
      simp [hfalse]
  rw [List.filter_congr hcong]
  simp [hr]

/-- `save_daily_data` over a cons unfolds one upsert. -/
theorem save_cons (today : String) (p : String × Metric) (ms : List (String × Metric))
    (tbl : List DailyRow) :
    save_daily_data today (p :: ms) tbl
      = save_daily_data today ms
          (insert_or_replace tbl ⟨today, p.1, p.2.spent, p.2.target, p.2.percentage⟩) := rfl

theorem save_filter_not_mem (today : String) (metrics : List (String × Metric))
    (tbl : List DailyRow) (c : String) (hc : c ∉ metrics.map Prod.fst) :
    (save_daily_data today metrics tbl).filter (rowKeyMatches today c)
      = tbl.filter (rowKeyMatches today c) := by
  induction metrics generalizing tbl with
  | nil => rfl
  | cons p ms ih =>
    rw [save_cons]
    have hc' : c ∉ ms.map Prod.fst := fun hmm => hc (List.mem_cons_of_mem _ hmm)
    have hcp : p.1 ≠ c := by
      intro hp
      exact hc (hp ▸ List.mem_cons_self _ _)
    rw [ih _ hc', filter_insert_other]
    exact fun hand => hcp hand.2

theorem save_filter_mem (today : String) (metrics : List (String × Metric))
    (tbl : List DailyRow) (c : String) (d : Metric)
    (hnd : (metrics.map Prod.fst).Nodup) (hmem : (c, d) ∈ metrics) :
    (save_daily_data today metrics tbl).filter (rowKeyMatches today c)
      = [⟨today, c, d.spent, d.target, d.percentage⟩] := by
  induction metrics generalizing tbl with
  | nil => cases hmem
  | cons p ms ih =>
    rw [List.map_cons, List.nodup_cons] at hnd
    rw [save_cons]
    rcases List.mem_cons.mp hmem with he | ht
    · have hc : p.1 = c := (congrArg Prod.fst he).symm
      have hd : p.2 = d := (congrArg Prod.snd he).symm
      have hcnot : c ∉ ms.map Prod.fst := hc ▸ hnd.1
      rw [save_filter_not_mem today ms _ c hcnot, hc, hd]
      exact filter_insert_same tbl ⟨today, c, d.spent, d.target, d.percentage⟩
    · exact ih _ hnd.2 ht

theorem insert_keyUnique (tbl : List DailyRow) (r : DailyRow) (h : keyUnique tbl) :
    keyUnique (insert_or_replace tbl r) := by
  unfold keyUnique insert_or_replace
  rw [List.map_append, List.nodup_append]
  refine ⟨List.Nodup.sublist (List.Sublist.map _ (List.filter_sublist tbl)) h,
    List.nodup_singleton _, ?_⟩
  intro x hx hx2
  obtain ⟨a, ha, rfl⟩ := List.mem_map.mp hx
  have hf := (List.mem_filter.mp ha).2
  simp only [List.map_cons, List.map_nil, List.mem_singleton] at hx2
  have h1 : a.date = r.date := congrArg Prod.fst hx2
  have h2 : a.category = r.category := congrArg Prod.snd hx2
  simp [rowKeyMatches, h1, h2] at hf

theorem save_keyUnique (today : String) (metrics : List (String × Metric))
    (tbl : List DailyRow) (h : keyUnique tbl) :
    keyUnique (save_daily_data today metrics tbl) := by
  induction metrics generalizing tbl with
  | nil => exact h
  | cons p ms ih =>
    rw [save_cons]
    exact ih _ (insert_keyUnique _ _ h)

/-- C4: running `save_daily_data` twice for the same date leaves exactly
one `daily_spending` row per (date, category) key of the second call,
holding the values of the second call, and the (date, category) key
stays unique in the store. -/
theorem C4_save_daily_data_upsert (tbl : List DailyRow) (today : String)
    (m1 m2 : List (String × Metric)) (c : String) (d : Metric)
    (hnd : (m2.map Prod.fst).Nodup) (hmem : (c, d) ∈ m2) :
    ((save_daily_data today m2 (save_daily_data today m1 tbl)).filter
        (rowKeyMatches today c)
      = [⟨today, c, d.spent, d.target, d.percentage⟩]) ∧
    (keyUnique tbl → keyUnique (save_daily_data today m2 (save_daily_data today m1 tbl))) :=
  ⟨save_filter_mem today m2 _ c d hnd hmem,
   fun h => save_keyUnique today m2 _ (save_keyUnique today m1 tbl h)⟩

def s_date : String := "2025-10-12"

/-- Witness for C4: two saves for one date and one category keep a
single row carrying the values of the second save. -/
theorem C4_witness :
    (([(cat_groceries, metricFor 200 900)].map Prod.fst).Nodup) ∧
    ((cat_groceries, metricFor 200 900) ∈ [(cat_groceries, metricFor 200 900)]) ∧
    ((save_daily_data s_date [(cat_groceries, metricFor 200 900)]
        (save_daily_data s_date [(cat_groceries, metricFor 100 900)] [])).filter
          (rowKeyMatches s_date cat_groceries)
      = [⟨s_date, cat_groceries, (metricFor 200 900).spent, (metricFor 200 900).target,
          (metricFor 200 900).percentage⟩]) := by
  have hnd : ([(cat_groceries, metricFor 200 900)].map Prod.fst).Nodup := by simp
  have hmem : (cat_groceries, metricFor 200 900) ∈ [(cat_groceries, metricFor 200 900)] :=
    List.mem_singleton.mpr rfl
  exact ⟨hnd, hmem,
    (C4_save_daily_data_upsert [] s_date [(cat_groceries, metricFor 100 900)]
      [(cat_groceries, metricFor 200 900)] cat_groceries (metricFor 200 900) hnd hmem).1⟩

/-! ### Trends (`calculate_spending_trends`)

The reference day of month (`datetime.now().day`) is injected as a
parameter. The Python loop also builds a `percentages` list from the
same window; that variable is dead (never read) and is not modelled. -/

def tr_increasing : String := "📈 Increasing"

def tr_decreasing : String := "📉 Decreasing"

def tr_stable : String := "➡️ Stable"

/-- One row of `get_historical_data` output: the per-category dicts
`{'date': ..., 'amount': ..., 'percentage': ...}`. -/
structure DataPoint where
  date : String
  amount : ℚ
  percentage : ℚ
deriving DecidableEq

/-- One entry of the `trends` dict. -/
structure TrendResult where
  trend : String
  trend_color : String
  slope : ℚ
  projected_total : ℚ
  avg_daily : ℚ
deriving DecidableEq

/-- `statistics.mean`. -/
def statistics_mean (xs : List ℚ) : ℚ :=
  xs.sum / (xs.length : ℚ)

/-- `amounts = [point['amount'] for point in data_points[-14:]]` — the
most recent at-most-14 points, oldest first. -/
def windowAmounts (data_points : List DataPoint) : List ℚ :=
  (data_points.drop (data_points.length - 14)).map DataPoint.amount

/-- The ordinary-least-squares slope computed in the loop body:
`(n*sum_xy - sum_x*sum_y) / (n*sum_x2 - sum_x*sum_x)` with
`x_values = range(len(amounts))`. -/
def olsSlope (amounts : List ℚ) : ℚ :=
  let n : ℚ := amounts.length
  let x_values : List ℚ := (List.range amounts.length).map (fun x => (x : ℚ))
  let sum_x := x_values.sum
  let sum_y := amounts.sum
  let sum_xy := (List.zipWith (fun x y => x * y) x_values amounts).sum
  let sum_x2 := (x_values.map (fun x => x * x)).sum
  (n * sum_xy - sum_x * sum_y) / (n * sum_x2 - sum_x * sum_x)

/-- `trend` label: increasing above +5 per day, decreasing below −5,
else stable. -/
def trendLabel (slope : ℚ) : String :=
  if 5 < slope then tr_increasing
  else if slope < -5 then tr_decreasing
  else tr_stable

/-- `trend_color`, set in the same branch as the label. -/
def trendColor (slope : ℚ) : String :=
  if 5 < slope then color_red
  else if slope < -5 then color_green
  else color_grey

/-- `projected_total = current_amount + max(0, slope * days_left)` with
`days_left = 30 - day` and `current_amount = amounts[-1] if amounts
else 0`. -/
def projectedTotal (currentDay : ℕ) (amounts : List ℚ) (slope : ℚ) : ℚ :=
  amounts.getLastD 0 + max 0 (slope * ((30 - (currentDay : ℤ) : ℤ) : ℚ))

/-- `avg_daily = statistics.mean(amounts[-7:]) if len(amounts) >= 7
else 0`. -/
def avgDaily (amounts : List ℚ) : ℚ :=
  if 7 ≤ amounts.length then statistics_mean (amounts.drop (amounts.length - 7))
  else 0

/-- The per-category body of the `calculate_spending_trends` loop:
`none` when the category is skipped (`continue`, or the `len >= 2`
guard failing). -/
def trendFor (currentDay : ℕ) (data_points : List DataPoint) : Option TrendResult :=
  if data_points.length < 7 then none
  else if 2 ≤ (windowAmounts data_points).length then
    some ⟨trendLabel (olsSlope (windowAmounts data_points)),
          trendColor (olsSlope (windowAmounts data_points)),
          olsSlope (windowAmounts data_points),
          projectedTotal currentDay (windowAmounts data_points)
            (olsSlope (windowAmounts data_points)),
          avgDaily (windowAmounts data_points)⟩
  else none

/-- `calculate_spending_trends`. -/
def calculate_spending_trends (currentDay : ℕ)
    (historical_data : List (String × List DataPoint)) : List (String × TrendResult) :=
  historical_data.filterMap (fun p => (trendFor currentDay p.2).map (fun r => (p.1, r)))

theorem windowAmounts_big (pts : List DataPoint) (h : 7 ≤ pts.length) :
    7 ≤ (windowAmounts pts).length := by
  unfold windowAmounts
  rw [List.length_map, List.length_drop]
  omega

/-- Inversion: what a produced trend entry must look like. -/
theorem trendFor_some (day : ℕ) (pts : List DataPoint) (r : TrendResult)
    (h : trendFor day pts = some r) :
    7 ≤ pts.length ∧ 2 ≤ (windowAmounts pts).length ∧
    r = ⟨trendLabel (olsSlope (windowAmounts pts)),
         trendColor (olsSlope (windowAmounts pts)),
         olsSlope (windowAmounts pts),
         projectedTotal day (windowAmounts pts) (olsSlope (windowAmounts pts)),
         avgDaily (windowAmounts pts)⟩ := by
  unfold trendFor at h
  split_ifs at h with h1 h2
  · exact ⟨not_lt.mp h1, h2, (Option.some.inj h).symm⟩

/-- A category with at least 7 points always produces a trend entry. -/
theorem trendFor_eq_some (day : ℕ) (pts : List DataPoint) (h7 : 7 ≤ pts.length) :
    trendFor day pts
      = some ⟨trendLabel (olsSlope (windowAmounts pts)),
              trendColor (olsSlope (windowAmounts pts)),
              olsSlope (windowAmounts pts),
              projectedTotal day (windowAmounts pts) (olsSlope (windowAmounts pts)),
              avgDaily (windowAmounts pts)⟩ := by
  unfold trendFor
  rw [if_neg (not_lt.mpr h7),
    if_pos (le_trans (by norm_num) (windowAmounts_big pts h7))]

/-- The 7-point spec test vector `[100,100,100,100,100,100,200]`. -/
def samplePoints : List DataPoint :=
  [⟨s_date, 100, 0⟩, ⟨s_date, 100, 0⟩, ⟨s_date, 100, 0⟩, ⟨s_date, 100, 0⟩,
   ⟨s_date, 100, 0⟩, ⟨s_date, 100, 0⟩, ⟨s_date, 200, 0⟩]

/-- Seven flat points of amount 100. -/
def flatPoints : List DataPoint :=
  [⟨s_date, 100, 0⟩, ⟨s_date, 100, 0⟩, ⟨s_date, 100, 0⟩, ⟨s_date, 100, 0⟩,
   ⟨s_date, 100, 0⟩, ⟨s_date, 100, 0⟩, ⟨s_date, 100, 0⟩]

/-- C5: a category with fewer than 7 points is omitted from the trends;
with at least 7 points an entry is produced whose slope is the OLS
slope of the most-recent-at-most-14 window (oldest first), classified
increasing when above 5; on the 7 amounts `[100,...,100,200]` the slope
exceeds 5 and the classification is increasing. -/
theorem C5_calculate_spending_trends_spec (day : ℕ)
    (hist : List (String × List DataPoint)) (c : String) (pts : List DataPoint)
    (hnd : (hist.map Prod.fst).Nodup) (hmem : (c, pts) ∈ hist) :
    (pts.length < 7 → ∀ r, (c, r) ∉ calculate_spending_trends day hist) ∧
    (7 ≤ pts.length → ∃ r, (c, r) ∈ calculate_spending_trends day hist ∧
      r.slope = olsSlope (windowAmounts pts) ∧
      (5 < r.slope → r.trend = tr_increasing)) ∧
    (∃ r, trendFor day samplePoints = some r ∧ 5 < r.slope ∧ r.trend = tr_increasing) := by
  refine ⟨?_, ?_, ?_⟩
  · intro hlt r hr
    obtain ⟨p, hp, hmap⟩ := List.mem_filterMap.mp hr
    cases htf : trendFor day p.2 with
    | none => rw [htf] at hmap; cases hmap
    | some r' =>
      rw [htf] at hmap
      have heq := Option.some.inj hmap
      have hc : p.1 = c := congrArg Prod.fst heq
      have hp' : (c, p.2) ∈ hist := by
        rw [← hc]
        exact (Prod.mk.eta (p := p)).symm ▸ hp
      have hpts : p.2 = pts := assoc_nodup_eq hist c p.2 pts hnd hp' hmem
      rw [hpts] at htf
      have h7 := (trendFor_some day pts r' htf).1
      omega
  · intro h7
    refine ⟨⟨trendLabel (olsSlope (windowAmounts pts)),
        trendColor (olsSlope (windowAmounts pts)),
        olsSlope (windowAmounts pts),
        projectedTotal day (windowAmounts pts) (olsSlope (windowAmounts pts)),
        avgDaily (windowAmounts pts)⟩,
      List.mem_filterMap.mpr ⟨(c, pts), hmem, ?_⟩, rfl, ?_⟩
    · rw [trendFor_eq_some day pts h7]; rfl
    · intro hs
      show trendLabel (olsSlope (windowAmounts pts)) = tr_increasing
      unfold trendLabel
      rw [if_pos hs]
  · have hw : windowAmounts samplePoints = [100, 100, 100, 100, 100, 100, 200] := by
      norm_num [windowAmounts, samplePoints]
    have hslope : olsSlope (windowAmounts samplePoints) = 75 / 7 := by
      rw [hw]; norm_num [olsSlope, List.range_succ]
    have h7 : 7 ≤ samplePoints.length := by norm_num [samplePoints]
    refine ⟨_, trendFor_eq_some day samplePoints h7, ?_, ?_⟩
    · show (5:ℚ) < olsSlope (windowAmounts samplePoints)
      rw [hslope]; norm_num
    · show trendLabel (olsSlope (windowAmounts samplePoints)) = tr_increasing
      unfold trendLabel
      rw [hslope, if_pos (by norm_num)]

/-- Witness for C5 at one-category history holding the spec test
vector. -/
theorem C5_witness :
    (([(cat_groceries, samplePoints)].map Prod.fst).Nodup) ∧
    ((cat_groceries, samplePoints) ∈ [(cat_groceries, samplePoints)]) ∧
    (∃ r, trendFor 1 samplePoints = some r ∧ 5 < r.slope ∧ r.trend = tr_increasing) := by
  have hnd : ([(cat_groceries, samplePoints)].map Prod.fst).Nodup := by simp
  have hmem : (cat_groceries, samplePoints) ∈ [(cat_groceries, samplePoints)] :=
    List.mem_singleton.mpr rfl
  exact ⟨hnd, hmem,
    (C5_calculate_spending_trends_spec 1 [(cat_groceries, samplePoints)]
      cat_groceries samplePoints hnd hmem).2.2⟩

/-- C6: every produced trend entry projects
`lastAmount + max(0, slope * (30 - day))`; the projection never drops
below the last observed window amount, and equals it whenever
`slope * daysRemaining ≤ 0`. -/
theorem C6_projection_floor (day : ℕ) (hist : List (String × List DataPoint))
    (c : String) (r : TrendResult)
    (hr : (c, r) ∈ calculate_spending_trends day hist) :
    ∃ pts, (c, pts) ∈ hist ∧ trendFor day pts = some r ∧
      r.projected_total
        = (windowAmounts pts).getLastD 0
            + max 0 (r.slope * ((30 - (day : ℤ) : ℤ) : ℚ)) ∧
      (windowAmounts pts).getLastD 0 ≤ r.projected_total ∧
      (r.slope * ((30 - (day : ℤ) : ℤ) : ℚ) ≤ 0 →
        r.projected_total = (windowAmounts pts).getLastD 0) := by
  obtain ⟨p, hp, hmap⟩ := List.mem_filterMap.mp hr
  cases htf : trendFor day p.2 with
  | none => rw [htf] at hmap; cases hmap
  | some r' =>
    rw [htf] at hmap
    have heq := Option.some.inj hmap
    have hc : p.1 = c := congrArg Prod.fst heq
    have hr' : r' = r := congrArg Prod.snd heq
    have hp' : (c, p.2) ∈ hist := by
      rw [← hc]
      exact (Prod.mk.eta (p := p)).symm ▸ hp
    have hrr : trendFor day p.2 = some r := by rw [htf, hr']
    obtain ⟨h7, h2, hrstruct⟩ := trendFor_some day p.2 r hrr
    refine ⟨p.2, hp', hrr, ?_, ?_, ?_⟩
    · rw [hrstruct]
      rfl
    · rw [hrstruct]
      exact le_add_of_nonneg_right (le_max_left 0 _)
    · intro hle
      rw [hrstruct] at hle ⊢
      show projectedTotal day (windowAmounts p.2) (olsSlope (windowAmounts p.2)) = _
      unfold projectedTotal
      rw [max_eq_left hle, add_zero]

/-- Value of a trend entry on seven flat points of amount 100. -/
theorem trendFor_flat (day : ℕ) :
    trendFor day flatPoints
      = some ⟨tr_stable, color_grey, 0, 100, 100⟩ := by
  have h7 : 7 ≤ flatPoints.length := by norm_num [flatPoints]
  have hw : windowAmounts flatPoints = [100, 100, 100, 100, 100, 100, 100] := by
    norm_num [windowAmounts, flatPoints]
  have hslope : olsSlope ([100, 100, 100, 100, 100, 100, 100] : List ℚ) = 0 := by
    norm_num [olsSlope, List.range_succ]
  rw [trendFor_eq_some day flatPoints h7, hw, hslope]
  norm_num [trendLabel, trendColor, projectedTotal, avgDaily, statistics_mean]

/-- The flat instance appears in the computed trends map. -/
theorem mem_trends_flat (day : ℕ) :
    (cat_groceries, (⟨tr_stable, color_grey, 0, 100, 100⟩ : TrendResult))
      ∈ calculate_spending_trends day [(cat_groceries, flatPoints)] := by
  refine List.mem_filterMap.mpr
    ⟨(cat_groceries, flatPoints), List.mem_singleton.mpr rfl, ?_⟩
  rw [trendFor_flat day]
  rfl

/-- Witness for C6: a zero-slope category projects exactly its last
observed amount. -/
theorem C6_witness :
    ∃ pts, (cat_groceries, pts) ∈ [(cat_groceries, flatPoints)] ∧
      trendFor 1 pts = some (⟨tr_stable, color_grey, 0, 100, 100⟩ : TrendResult) ∧
      (⟨tr_stable, color_grey, 0, 100, 100⟩ : TrendResult).projected_total
        = (windowAmounts pts).getLastD 0
            + max 0 ((⟨tr_stable, color_grey, 0, 100, 100⟩ : TrendResult).slope
                * ((30 - ((1:ℕ) : ℤ) : ℤ) : ℚ)) ∧
      (windowAmounts pts).getLastD 0
          ≤ (⟨tr_stable, color_grey, 0, 100, 100⟩ : TrendResult).projected_total ∧
      ((⟨tr_stable, color_grey, 0, 100, 100⟩ : TrendResult).slope
            * ((30 - ((1:ℕ) : ℤ) : ℤ) : ℚ) ≤ 0 →
        (⟨tr_stable, color_grey, 0, 100, 100⟩ : TrendResult).projected_total
          = (windowAmounts pts).getLastD 0) :=
  C6_projection_floor 1 [(cat_groceries, flatPoints)] cat_groceries
    ⟨tr_stable, color_grey, 0, 100, 100⟩ (mem_trends_flat 1)

/-- C10: every produced trend entry has `avg_daily` equal to the
arithmetic mean of the last 7 window amounts; the last-7 slice always
holds exactly 7 amounts, so the 0 fallback is unreachable. -/
theorem C10_avg_daily_mean (day : ℕ) (hist : List (String × List DataPoint))
    (c : String) (r : TrendResult)
    (hr : (c, r) ∈ calculate_spending_trends day hist) :
    ∃ pts, (c, pts) ∈ hist ∧
      ((windowAmounts pts).drop ((windowAmounts pts).length - 7)).length = 7 ∧
      r.avg_daily = ((windowAmounts pts).drop ((windowAmounts pts).length - 7)).sum / 7 := by
  obtain ⟨p, hp, hmap⟩ := List.mem_filterMap.mp hr
  cases htf : trendFor day p.2 with
  | none => rw [htf] at hmap; cases hmap
  | some r' =>
    rw [htf] at hmap
    have heq := Option.some.inj hmap
    have hc : p.1 = c := congrArg Prod.fst heq
    have hr' : r' = r := congrArg Prod.snd heq
    have hp' : (c, p.2) ∈ hist := by
      rw [← hc]
      exact (Prod.mk.eta (p := p)).symm ▸ hp
    have hrr : trendFor day p.2 = some r := by rw [htf, hr']
    obtain ⟨h7, h2, hrstruct⟩ := trendFor_some day p.2 r hrr
    have hwlen : 7 ≤ (windowAmounts p.2).length := windowAmounts_big p.2 h7
    have hdroplen : ((windowAmounts p.2).drop ((windowAmounts p.2).length - 7)).length = 7 := by
      rw [List.length_drop]; omega
    refine ⟨p.2, hp', hdroplen, ?_⟩
    rw [hrstruct]
    show avgDaily (windowAmounts p.2) = _
    unfold avgDaily
    rw [if_pos hwlen]
    unfold statistics_mean
    rw [hdroplen]
    norm_num

/-- Witness for C10: on seven flat points the average of the last 7
amounts is 100. -/
theorem C10_witness :
    ∃ pts, (cat_groceries, pts) ∈ [(cat_groceries, flatPoints)] ∧
      ((windowAmounts pts).drop ((windowAmounts pts).length - 7)).length = 7 ∧
      (⟨tr_stable, color_grey, 0, 100, 100⟩ : TrendResult).avg_daily
        = ((windowAmounts pts).drop ((windowAmounts pts).length - 7)).sum / 7 :=
  C10_avg_daily_mean 2 [(cat_groceries, flatPoints)] cat_groceries
    ⟨tr_stable, color_grey, 0, 100, 100⟩ (mem_trends_flat 2)

/-! ### Label lookup case sensitivity (C7)

`process_transactions` maps a raw label through
`self.category_mapping.get(category_name, category_name)` — a Python
dict lookup, which compares keys exactly. -/

/-- Modelled from the spec: the case-folding relation implicit in the
claim that the label lookup is a case-insensitive exact match — two
labels differ only in letter case when lowercasing every character
makes them equal. -/
def spec_sameUpToCase (a b : String) : Prop :=
  a.data.map Char.toLower = b.data.map Char.toLower

/-- The all-caps variant of the groceries raw label. -/
def upperGroceries : String := "🥕  GROCERIES"

/-- C7 counterexample: two labels differing only in letter case for
which the mapping yields different category identifiers, refuting the
claimed case-insensitivity of the lookup. -/
theorem C7_counterexample :
    spec_sameUpToCase rl_groceries upperGroceries ∧
    map_label rl_groceries ≠ map_label upperGroceries := by
  constructor
  · show rl_groceries.data.map Char.toLower = upperGroceries.data.map Char.toLower
    decide
  · decide

/-- C7 amended: the lookup is a case-sensitive exact match in the
configured mapping table; a label with no entry passes through
unchanged as its own identifier. -/
theorem C7_amended_exact_match (l : String) :
    (category_mapping.lookup l = none → map_label l = l) ∧
    (∀ c, category_mapping.lookup l = some c → map_label l = c) := by
  constructor
  · intro h
    unfold map_label
    rw [h]
    rfl
  · intro c h
    unfold map_label
    rw [h]
    rfl

/-- Witness for the amended C7: a mapped label resolves to its table
entry and an unmapped label passes through. -/
theorem C7_witness :
    (category_mapping.lookup upperGroceries = none
      ∧ map_label upperGroceries = upperGroceries) ∧
    (category_mapping.lookup rl_groceries = some cat_groceries
      ∧ map_label rl_groceries = cat_groceries) := by
  have h1 : category_mapping.lookup upperGroceries = none := by decide
  have h2 : category_mapping.lookup rl_groceries = some cat_groceries := by decide
  exact ⟨⟨h1, (C7_amended_exact_match upperGroceries).1 h1⟩,
    ⟨h2, (C7_amended_exact_match rl_groceries).2 cat_groceries h2⟩⟩

/-! ### History reads and store unavailability (`get_historical_data`, C8)

`get_historical_data` opens the database with `sqlite3.connect`; when
the database file is missing, sqlite creates a fresh empty database
holding no tables, so the subsequent
`SELECT ... FROM daily_spending` raises
`sqlite3.OperationalError: no such table: daily_spending`. The function
contains no try/except, so the exception propagates to `run()`, which
logs and re-raises. The store is therefore modelled as either available
(with its rows) or missing, and the read returns `Except`: `error`
models the raised exception. -/

/-- The durable store as seen by a read: the `daily_spending` rows, or
a missing database file. -/
inductive StoreState where
  | available (rows : List DailyRow)
  | missing

def errNoTable : String := "no such table: daily_spending"

/-- Insert a row into a date-sorted list (models `ORDER BY date ASC`;
SQL leaves the relative order of equal dates unspecified). -/
def insertByDate (r : DailyRow) : List DailyRow → List DailyRow
  | [] => [r]
  | x :: xs => if r.date ≤ x.date then r :: x :: xs else x :: insertByDate r xs

/-- Sort rows ascending by date. -/
def sortByDate : List DailyRow → List DailyRow
  | [] => []
  | r :: rs => insertByDate r (sortByDate rs)

/-- One step of the `for row in cursor.fetchall()` loop: append the
point to its category list in the `defaultdict(list)`, creating the
key on first appearance. -/
def addPoint (acc : List (String × List DataPoint)) (r : DailyRow) :
    List (String × List DataPoint) :=
  if acc.any (fun p => p.1 == r.category) then
    acc.map (fun p =>
      if p.1 == r.category then (p.1, p.2 ++ [⟨r.date, r.amount, r.percentage⟩]) else p)
  else acc ++ [(r.category, [⟨r.date, r.amount, r.percentage⟩])]

/-- The `defaultdict(list)` accumulation over the fetched rows. -/
def groupByCategory (rows : List DailyRow) : List (String × List DataPoint) :=
  rows.foldl addPoint []

/-- `get_historical_data`, with the cutoff date string
(`now - timedelta(days=days)`) injected: selects rows with
`date >= cutoff` ordered by date, grouped per category; a missing
store raises. -/
def get_historical_data (cutoff : String) :
    StoreState → Except String (List (String × List DataPoint))
  | StoreState.missing => Except.error errNoTable
  | StoreState.available rows =>
      Except.ok (groupByCategory (sortByDate (rows.filter (fun r => cutoff ≤ r.date))))

/-- C8 counterexample: with the database file missing, the read raises
(models `sqlite3.OperationalError`) instead of returning an explicit
empty result, refuting the claimed degrade-on-read behavior. -/
theorem C8_counterexample :
    get_historical_data s_date StoreState.missing = Except.error errNoTable ∧
    ¬ ∃ v, get_historical_data s_date StoreState.missing = Except.ok v := by
  refine ⟨rfl, ?_⟩
  rintro ⟨v, hv⟩
  cases hv

/-- C8 amended: a read against a missing store propagates the error
(so the run aborts), while a reachable store with no rows in range
yields the empty mapping. -/
theorem C8_amended_read_behavior :
    (∀ cutoff : String,
      get_historical_data cutoff StoreState.missing = Except.error errNoTable) ∧
    (∀ cutoff : String,
      get_historical_data cutoff (StoreState.available []) = Except.ok []) :=
  ⟨fun _ => rfl, fun _ => rfl⟩

end BudgetAutomation
